import Mathlib

/-!
A shallow embedding of the `edge-impulse-ffi-rs` runtime layer (`src/lib.rs`,
`src/bindings_dummy.rs` and `src/runner_api.rs`) together with proofs about it.

Modelling conventions:
* Rust `f32` score values are modelled as exact rational numbers (`Rat`).
  This is exact for the operations the theorems below exercise (pushing and
  reading the literal `0.0`, equality comparison with `0.0`, field
  pass-through), but it idealizes the smoothing filter's running `f32` sum,
  which rounds; exact-sum properties of that accumulator over arbitrary
  inputs are outside this model and are not settled here.
* `u32` fields are modelled as `Nat`, `i32` status codes as `Int`; the Rust
  `as i32` cast on `u32` is modelled explicitly by `u32_as_i32`.
* The foreign engine entry points (`ei_ffi_signal_from_buffer`,
  `ei_ffi_run_classifier`, `ei_ffi_run_classifier_continuous`,
  `ei_ffi_run_inference`) are modelled by an explicit `Engine` record of
  oracles.  Every wrapper operation additionally returns the list of engine
  calls it performed, so that statements of the form "the engine is never
  invoked" are expressible as the emptiness of that trace.
* Rust `HashMap<String, f32>` values are modelled as association lists with
  insert-replaces-existing-key semantics (`mapInsert` / `mapGet`); the claims
  proved below do not depend on any particular iteration order.
-/

/-- Rust `f32` score values are modelled as exact rational numbers. -/
abbrev F32 := Rat

/-- The Rust `x as i32` cast applied to a `u32` value (two's-complement
reinterpretation), as used by `convert_inference_result` in `runner_api.rs`. -/
def u32_as_i32 (n : Nat) : Int :=
  if n < 2147483648 then (n : Int) else (n : Int) - 4294967296

/-- Status code `EI_IMPULSE_OK` from the engine bindings. -/
def EI_IMPULSE_OK : Int := 0

/-- Status code `EI_IMPULSE_ERROR_SHAPES_DONT_MATCH` from the engine bindings. -/
def EI_IMPULSE_ERROR_SHAPES_DONT_MATCH : Int := 1

/-- Status code `EI_IMPULSE_CANCELED` from the engine bindings. -/
def EI_IMPULSE_CANCELED : Int := 2

/-- Status code `EI_IMPULSE_ALLOC_FAILED` from the engine bindings. -/
def EI_IMPULSE_ALLOC_FAILED : Int := 3

/-- Status code `EI_IMPULSE_OUT_OF_MEMORY` from the engine bindings. -/
def EI_IMPULSE_OUT_OF_MEMORY : Int := 4

/-- Status code `EI_IMPULSE_INPUT_TENSOR_WAS_NULL` from the engine bindings. -/
def EI_IMPULSE_INPUT_TENSOR_WAS_NULL : Int := 5

/-- Status code `EI_IMPULSE_OUTPUT_TENSOR_WAS_NULL` from the engine bindings. -/
def EI_IMPULSE_OUTPUT_TENSOR_WAS_NULL : Int := 6

/-- Status code `EI_IMPULSE_TFLITE_ERROR` from the engine bindings. -/
def EI_IMPULSE_TFLITE_ERROR : Int := 7

/-- Status code `EI_IMPULSE_TFLITE_ARENA_ALLOC_FAILED` from the engine bindings. -/
def EI_IMPULSE_TFLITE_ARENA_ALLOC_FAILED : Int := 8

/-- Status code `EI_IMPULSE_DSP_ERROR` from the engine bindings. -/
def EI_IMPULSE_DSP_ERROR : Int := 9

/-- Status code `EI_IMPULSE_INVALID_SIZE` from the engine bindings. -/
def EI_IMPULSE_INVALID_SIZE : Int := 10

/-- Status code `EI_IMPULSE_ONLY_SUPPORTED_FOR_IMAGES` from the engine bindings. -/
def EI_IMPULSE_ONLY_SUPPORTED_FOR_IMAGES : Int := 11

/-- Status code `EI_IMPULSE_UNSUPPORTED_INFERENCING_ENGINE` from the engine bindings. -/
def EI_IMPULSE_UNSUPPORTED_INFERENCING_ENGINE : Int := 12

/-- Status code `EI_IMPULSE_INFERENCE_ERROR` from the engine bindings. -/
def EI_IMPULSE_INFERENCE_ERROR : Int := 13

/-- The status codes named in the `From<bindings::EI_IMPULSE_ERROR>` match arms
of `src/lib.rs` (every other code falls into the wildcard arm). -/
def knownStatusCodes : List Int :=
  [EI_IMPULSE_OK, EI_IMPULSE_ERROR_SHAPES_DONT_MATCH, EI_IMPULSE_CANCELED,
   EI_IMPULSE_ALLOC_FAILED, EI_IMPULSE_OUT_OF_MEMORY,
   EI_IMPULSE_INPUT_TENSOR_WAS_NULL, EI_IMPULSE_OUTPUT_TENSOR_WAS_NULL,
   EI_IMPULSE_TFLITE_ERROR, EI_IMPULSE_TFLITE_ARENA_ALLOC_FAILED,
   EI_IMPULSE_DSP_ERROR, EI_IMPULSE_INVALID_SIZE,
   EI_IMPULSE_ONLY_SUPPORTED_FOR_IMAGES,
   EI_IMPULSE_UNSUPPORTED_INFERENCING_ENGINE, EI_IMPULSE_INFERENCE_ERROR]

/-- Error type for Edge Impulse operations (`EdgeImpulseError` in `src/lib.rs`). -/
inductive EdgeImpulseError where
  | Ok
  | ShapesDontMatch
  | Canceled
  | MemoryAllocationFailed
  | OutOfMemory
  | InputTensorWasNull
  | OutputTensorWasNull
  | AllocatedTensorWasNull
  | TfliteError
  | TfliteArenaAllocFailed
  | ReadSensor
  | MinSizeRatio
  | MaxSizeRatio
  | OnlySupportImages
  | ModelInputTensorWasNull
  | ModelOutputTensorWasNull
  | UnsupportedInferencingEngine
  | AllocWhileCacheLocked
  | NoValidImpulse
  | Other
deriving DecidableEq, Repr

/-- The `impl From<bindings::EI_IMPULSE_ERROR> for EdgeImpulseError` conversion
of `src/lib.rs`: a numeric engine status code is mapped to an error kind, with
all unlisted codes falling into the wildcard arm that yields `Other`. -/
def EdgeImpulseError.fromCode (code : Int) : EdgeImpulseError :=
  if code = EI_IMPULSE_OK then .Ok
  else if code = EI_IMPULSE_ERROR_SHAPES_DONT_MATCH then .ShapesDontMatch
  else if code = EI_IMPULSE_CANCELED then .Canceled
  else if code = EI_IMPULSE_ALLOC_FAILED then .MemoryAllocationFailed
  else if code = EI_IMPULSE_OUT_OF_MEMORY then .OutOfMemory
  else if code = EI_IMPULSE_INPUT_TENSOR_WAS_NULL then .InputTensorWasNull
  else if code = EI_IMPULSE_OUTPUT_TENSOR_WAS_NULL then .OutputTensorWasNull
  else if code = EI_IMPULSE_TFLITE_ERROR then .TfliteError
  else if code = EI_IMPULSE_TFLITE_ARENA_ALLOC_FAILED then .TfliteArenaAllocFailed
  else if code = EI_IMPULSE_DSP_ERROR then .ReadSensor
  else if code = EI_IMPULSE_INVALID_SIZE then .MinSizeRatio
  else if code = EI_IMPULSE_ONLY_SUPPORTED_FOR_IMAGES then .OnlySupportImages
  else if code = EI_IMPULSE_UNSUPPORTED_INFERENCING_ENGINE then .UnsupportedInferencingEngine
  else if code = EI_IMPULSE_INFERENCE_ERROR then .NoValidImpulse
  else .Other

/-- Classification result entry (`ClassificationResult` in `src/lib.rs`). -/
structure ClassificationResult where
  label : String
  value : F32
deriving DecidableEq, Repr

/-- Bounding box (`BoundingBox` in `src/lib.rs`, coordinates are `u32`). -/
structure BoundingBox where
  label : String
  value : F32
  x : Nat
  y : Nat
  width : Nat
  height : Nat
deriving DecidableEq, Repr

/-- Timing result (`TimingResult` in `src/lib.rs`). -/
structure TimingResult where
  dsp : Int
  classification : Int
  anomaly : Int
deriving DecidableEq, Repr

/-- The contents of the `ei_impulse_result_t` struct that `InferenceResult`
in `src/lib.rs` points to: a fixed classification array, a bounding-box array
with an explicit count, and a timing block.  A null `bounding_boxes` pointer
is represented by an empty `bounding_boxes_raw` list (with count `0`). -/
structure InferenceResult where
  classification : List ClassificationResult
  bounding_boxes_raw : List BoundingBox
  bounding_boxes_count : Nat
  timing : TimingResult
deriving DecidableEq, Repr

/-- `InferenceResult::classifications` in `src/lib.rs`: reads the first
`label_count` entries of the classification array. -/
def InferenceResult.classifications (r : InferenceResult) (label_count : Nat) :
    List ClassificationResult :=
  r.classification.take label_count

/-- The body of the `filter_map` closure in `InferenceResult::bounding_boxes`
(`src/lib.rs`): boxes whose value is exactly `0.0` are dropped, all others are
rebuilt field by field. -/
def surfaceBox (bb : BoundingBox) : Option BoundingBox :=
  if bb.value = 0 then none
  else some { label := bb.label, value := bb.value, x := bb.x, y := bb.y,
              width := bb.width, height := bb.height }

/-- `InferenceResult::bounding_boxes` in `src/lib.rs`: returns `[]` when the
count is zero (or the pointer is null), otherwise reads `bounding_boxes_count`
raw boxes and filters out those with value exactly `0.0`. -/
def InferenceResult.bounding_boxes (r : InferenceResult) : List BoundingBox :=
  if r.bounding_boxes_count = 0 then []
  else (r.bounding_boxes_raw.take r.bounding_boxes_count).filterMap surfaceBox

/-- `InferenceResult::timing` in `src/lib.rs`. -/
def InferenceResult.getTiming (r : InferenceResult) : TimingResult :=
  r.timing

/-- Signal structure for holding audio or sensor data (`Signal` in
`src/lib.rs`); it wraps the buffer handed to `signal_from_buffer`. -/
structure Signal where
  data : List F32
deriving DecidableEq, Repr

/-- One foreign engine invocation, recorded in the call trace that every
wrapper operation returns. -/
inductive EngineCall where
  | runClassifierInit
  | runClassifierDeinit
  | signalFromBuffer (data : List F32)
  | runClassifier (data : List F32)
  | runClassifierContinuous (data : List F32) (enable_maf : Bool)
  | runInference
deriving DecidableEq, Repr

/-- The foreign engine, modelled as a record of oracles: each entry point
returns the status code (and, for the classify entry points, the raw result
struct it would fill in). -/
structure Engine where
  signal_from_buffer : List F32 → Int
  run_classifier : List F32 → Int × InferenceResult
  run_classifier_continuous : List F32 → Int × InferenceResult
  run_inference : Int × InferenceResult

/-- `Signal::from_raw_data` in `src/lib.rs`: calls `ei_ffi_signal_from_buffer`
and wraps the buffer on status `EI_IMPULSE_OK`, otherwise maps the status code
to an `EdgeImpulseError`. -/
def Signal.from_raw_data (eng : Engine) (data : List F32) :
    Except EdgeImpulseError Signal × List EngineCall :=
  let code := eng.signal_from_buffer data
  if code = EI_IMPULSE_OK then (.ok ⟨data⟩, [.signalFromBuffer data])
  else (.error (EdgeImpulseError.fromCode code), [.signalFromBuffer data])

/-- Main Edge Impulse classifier (`EdgeImpulseClassifier` in `src/lib.rs`). -/
structure EdgeImpulseClassifier where
  initialized : Bool
deriving DecidableEq, Repr

/-- `EdgeImpulseClassifier::new`. -/
def EdgeImpulseClassifier.mk_new : EdgeImpulseClassifier := ⟨false⟩

/-- `EdgeImpulseClassifier::init`: invokes `ei_ffi_run_classifier_init`,
unconditionally marks the classifier initialized and returns `Ok(())`. -/
def EdgeImpulseClassifier.init (c : EdgeImpulseClassifier) :
    Except EdgeImpulseError Unit × EdgeImpulseClassifier × List EngineCall :=
  (.ok (), { c with initialized := true }, [.runClassifierInit])

/-- `EdgeImpulseClassifier::deinit`: invokes `ei_ffi_run_classifier_deinit`
only when initialized, and returns `Ok(())` either way. -/
def EdgeImpulseClassifier.deinit (c : EdgeImpulseClassifier) :
    Except EdgeImpulseError Unit × EdgeImpulseClassifier × List EngineCall :=
  if c.initialized then (.ok (), { c with initialized := false }, [.runClassifierDeinit])
  else (.ok (), c, [])

/-- `EdgeImpulseClassifier::run_classifier` in `src/lib.rs`: rejects with
`Err(EdgeImpulseError::Other)` when not initialized, otherwise invokes
`ei_ffi_run_classifier` and returns the raw result on status `EI_IMPULSE_OK`
or the mapped status code otherwise. -/
def EdgeImpulseClassifier.run_classifier (c : EdgeImpulseClassifier) (eng : Engine)
    (signal : Signal) (debug : Bool) :
    Except EdgeImpulseError InferenceResult × List EngineCall :=
  if c.initialized then
    let r := eng.run_classifier signal.data
    if r.1 = EI_IMPULSE_OK then (.ok r.2, [.runClassifier signal.data])
    else (.error (EdgeImpulseError.fromCode r.1), [.runClassifier signal.data])
  else (.error .Other, [])

/-- `EdgeImpulseClassifier::run_classifier_continuous` in `src/lib.rs`:
rejects with `Err(EdgeImpulseError::Other)` when not initialized, otherwise
invokes `ei_ffi_run_classifier_continuous`. -/
def EdgeImpulseClassifier.run_classifier_continuous (c : EdgeImpulseClassifier)
    (eng : Engine) (signal : Signal) (debug : Bool) (enable_maf : Bool) :
    Except EdgeImpulseError InferenceResult × List EngineCall :=
  if c.initialized then
    let r := eng.run_classifier_continuous signal.data
    if r.1 = EI_IMPULSE_OK then (.ok r.2, [.runClassifierContinuous signal.data enable_maf])
    else (.error (EdgeImpulseError.fromCode r.1), [.runClassifierContinuous signal.data enable_maf])
  else (.error .Other, [])

/-- `EdgeImpulseClassifier::run_inference` in `src/lib.rs` (the `handle` and
`fmatrix` arguments are opaque foreign pointers and carry no modelled data):
rejects with `Err(EdgeImpulseError::Other)` when not initialized, otherwise
invokes `ei_ffi_run_inference` and compares the mapped status with `Ok`. -/
def EdgeImpulseClassifier.run_inference (c : EdgeImpulseClassifier) (eng : Engine) :
    Except EdgeImpulseError InferenceResult × List EngineCall :=
  if c.initialized then
    let r := eng.run_inference
    let e := EdgeImpulseError.fromCode r.1
    if e = .Ok then (.ok r.2, [.runInference])
    else (.error e, [.runInference])
  else (.error .Other, [])

/-- Error type for the runner-compatible API (`EimError` in
`src/runner_api.rs`). -/
inductive EimError where
  | InvalidPath
  | SocketError (msg : String)
  | ExecutionError (msg : String)
  | ModelNotInitialized
  | InvalidInput (msg : String)
  | JsonError (msg : String)
  | TimeoutError (msg : String)
  | Other (msg : String)
deriving DecidableEq, Repr

/-- The `impl From<EdgeImpulseError> for EimError` conversion at the end of
`src/runner_api.rs`, arm by arm. -/
def EimError.ofEdgeImpulseError : EdgeImpulseError → EimError
  | .Ok => .Other "Unexpected OK status"
  | .ShapesDontMatch => .InvalidInput "Shapes don\x27t match"
  | .Canceled => .ExecutionError "Operation canceled"
  | .MemoryAllocationFailed => .ExecutionError "Memory allocation failed"
  | .OutOfMemory => .ExecutionError "Out of memory"
  | .InputTensorWasNull => .InvalidInput "Input tensor was null"
  | .OutputTensorWasNull => .ExecutionError "Output tensor was null"
  | .AllocatedTensorWasNull => .ExecutionError "Allocated tensor was null"
  | .TfliteError => .ExecutionError "TensorFlow Lite error"
  | .TfliteArenaAllocFailed => .ExecutionError "TensorFlow Lite arena allocation failed"
  | .ReadSensor => .ExecutionError "Error reading sensor data"
  | .MinSizeRatio => .InvalidInput "Minimum size ratio not met"
  | .MaxSizeRatio => .InvalidInput "Maximum size ratio exceeded"
  | .OnlySupportImages => .InvalidInput "Only image input is supported"
  | .ModelInputTensorWasNull => .ExecutionError "Model input tensor was null"
  | .ModelOutputTensorWasNull => .ExecutionError "Model output tensor was null"
  | .UnsupportedInferencingEngine => .ExecutionError "Unsupported inferencing engine"
  | .AllocWhileCacheLocked => .ExecutionError "Allocation attempted while cache is locked"
  | .NoValidImpulse => .ModelNotInitialized
  | .Other => .Other "Unknown error occurred"

/-- `RunnerHelloHasAnomaly` in `src/runner_api.rs` (`types` module). -/
inductive RunnerHelloHasAnomaly where
  | None
  | KMeans
  | GMM
  | VisualGMM
deriving DecidableEq, Repr

/-- `ModelThreshold` in `src/runner_api.rs` (`types` module). -/
inductive ModelThreshold where
  | ObjectDetection (id : Nat) (min_score : F32)
  | AnomalyGMM (id : Nat) (min_anomaly_score : F32)
  | ObjectTracking (id : Nat) (keep_grace : Nat) (max_observations : Nat) (threshold : F32)
  | Unknown (id : Nat) (unknown : F32)
deriving DecidableEq, Repr

/-- `SensorType` in `src/runner_api.rs` (`types` module). -/
inductive SensorType where
  | Unknown
  | Microphone
  | Accelerometer
  | Camera
  | Positional
deriving DecidableEq, Repr

/-- The `impl From<i32> for SensorType` conversion in `src/runner_api.rs`. -/
def SensorType.fromCode (value : Int) : SensorType :=
  if value = 1 then .Microphone
  else if value = 2 then .Accelerometer
  else if value = 3 then .Camera
  else if value = 4 then .Positional
  else .Unknown

/-- `ModelParameters` in `src/runner_api.rs` (`types` module). -/
structure ModelParameters where
  axis_count : Nat
  frequency : F32
  has_anomaly : RunnerHelloHasAnomaly
  has_object_tracking : Bool
  image_channel_count : Nat
  image_input_frames : Nat
  image_input_height : Nat
  image_input_width : Nat
  image_resize_mode : String
  inferencing_engine : Nat
  input_features_count : Nat
  interval_ms : F32
  label_count : Nat
  labels : List String
  model_type : String
  sensor : Int
  slice_size : Nat
  thresholds : List ModelThreshold
  use_continuous_mode : Bool
deriving DecidableEq, Repr

/-- Bounding box of the runner API (`types::BoundingBox` in
`src/runner_api.rs`; its coordinates are `i32`). -/
structure RunnerBoundingBox where
  height : Int
  label : String
  value : F32
  width : Int
  x : Int
  y : Int
deriving DecidableEq, Repr

/-- Association-list model of `HashMap<String, f32>` insertion: replace the
value of an existing key, otherwise add a new entry.  The claims below never
depend on entry order, matching the map semantics of the Rust `HashMap`. -/
def mapInsert (mp : List (String × F32)) (k : String) (v : F32) :
    List (String × F32) :=
  if mp.any (fun p => p.1 == k) then
    mp.map (fun p => if p.1 == k then (k, v) else p)
  else mp ++ [(k, v)]

/-- Association-list model of `HashMap<String, f32>` lookup. -/
def mapGet (mp : List (String × F32)) (k : String) : Option F32 :=
  (mp.find? (fun p => p.1 == k)).map (fun p => p.2)

/-- `inference::messages::InferenceResult` in `src/runner_api.rs`: the caller
facing tagged union over classification, object detection and visual anomaly
results. -/
inductive RunnerInferenceResult where
  | Classification (classification : List (String × F32))
  | ObjectDetection (bounding_boxes : List RunnerBoundingBox)
      (classification : List (String × F32))
  | VisualAnomaly (visual_anomaly_grid : List RunnerBoundingBox)
      (visual_anomaly_max : F32) (visual_anomaly_mean : F32) (anomaly : F32)
deriving DecidableEq, Repr

/-- `inference::messages::InferenceResponse` in `src/runner_api.rs`. -/
structure InferenceResponse where
  success : Bool
  id : Nat
  result : RunnerInferenceResult
deriving DecidableEq, Repr

/-- `MovingAverageFilter` in `src/runner_api.rs`.  The `VecDeque` is modelled
as a list whose head is the oldest element (`pop_front` removes the head,
`push_back` appends at the end). -/
structure MovingAverageFilter where
  buffer : List F32
  window_size : Nat
  sum : F32
deriving DecidableEq, Repr

/-- `MovingAverageFilter::new`. -/
def MovingAverageFilter.mk_new (window_size : Nat) : MovingAverageFilter :=
  { buffer := [], window_size := window_size, sum := 0 }

/-- `MovingAverageFilter::update`: when the queue is at capacity, pop the
oldest value and subtract it from the running sum; then push the new value,
add it to the sum, and return `sum / buffer.len()`.  The source performs
these steps on an `f32` accumulator, which rounds; here they are exact
rational arithmetic, which coincides with the source only on inputs (such as
all zeros) on which `f32` arithmetic is exact. -/
def MovingAverageFilter.update (m : MovingAverageFilter) (value : F32) :
    MovingAverageFilter × F32 :=
  let m1 :=
    if m.window_size ≤ m.buffer.length then
      match m.buffer with
      | [] => m
      | old :: rest => { m with buffer := rest, sum := m.sum - old }
    else m
  let m2 := { m1 with buffer := m1.buffer ++ [value], sum := m1.sum + value }
  (m2, m2.sum / (m2.buffer.length : F32))

/-- `ContinuousState` in `src/runner_api.rs`. -/
structure ContinuousState where
  feature_matrix : List F32
  feature_buffer_full : Bool
  maf_buffers : List (String × MovingAverageFilter)
  slice_size : Nat
deriving DecidableEq, Repr

/-- `ContinuousState::new`: empty window, buffer not full, one fresh
window-4 moving-average filter per label. -/
def ContinuousState.mk_new (labels : List String) (slice_size : Nat) :
    ContinuousState :=
  { feature_matrix := [],
    feature_buffer_full := false,
    maf_buffers := labels.map (fun label => (label, MovingAverageFilter.mk_new 4)),
    slice_size := slice_size }

/-- `ContinuousState::update_features`: append the new features; once the
resulting length reaches `slice_size`, mark the buffer full and drain from the
front so that exactly the most recent `slice_size` samples remain. -/
def ContinuousState.update_features (s : ContinuousState) (features : List F32) :
    ContinuousState :=
  let fm := s.feature_matrix ++ features
  if s.slice_size ≤ fm.length then
    { s with
      feature_buffer_full := true,
      feature_matrix := if s.slice_size < fm.length then fm.drop (fm.length - s.slice_size) else fm }
  else { s with feature_matrix := fm }

/-- The `get_mut` + `update` step of `ContinuousState::apply_maf` for one
label: find the label in the filter map, update that filter with the value,
and return the updated filter map together with the smoothed value (the value
is returned unchanged when the label has no filter). -/
def updateMafBuffers :
    List (String × MovingAverageFilter) → String → F32 →
      List (String × MovingAverageFilter) × F32
  | [], _, v => ([], v)
  | (l, maf) :: rest, label, v =>
    if l == label then
      let r := maf.update v
      ((l, r.1) :: rest, r.2)
    else
      let r := updateMafBuffers rest label v
      ((l, maf) :: r.1, r.2)

/-- The iteration of `ContinuousState::apply_maf` over all classification
entries, threading the filter map through. -/
def applyMafList (bufs : List (String × MovingAverageFilter)) :
    List (String × F32) →
      List (String × MovingAverageFilter) × List (String × F32)
  | [] => (bufs, [])
  | (label, v) :: rest =>
    let r1 := updateMafBuffers bufs label v
    let r2 := applyMafList r1.1 rest
    (r2.1, (label, r1.2) :: r2.2)

/-- `ContinuousState::apply_maf`: pass every classification value through the
moving-average filter of its label (mutating the filters). -/
def ContinuousState.apply_maf (s : ContinuousState)
    (classification : List (String × F32)) :
    ContinuousState × List (String × F32) :=
  let r := applyMafList s.maf_buffers classification
  ({ s with maf_buffers := r.1 }, r.2)

/-- Modelled from the spec: the generated `model_metadata` module (a build
product, not present under `src/`) is "a generated set of named numeric/string
constants (input dimensions, label count, sensor type, slice size, capability
flags) that the core components read at construction time"; it is modelled as
a record of those constants, over which the theorems quantify. -/
structure Metadata where
  input_width : Nat
  input_height : Nat
  input_frames : Nat
  label_count : Nat
  sensor : Int
  inferencing_engine : Nat
  interval_ms : Nat
  frequency : Nat
  slice_size : Nat
  has_anomaly : Bool
  has_object_detection : Bool
  has_object_tracking : Bool
  input_features_count : Nat
deriving DecidableEq, Repr

/-- `EimModel` in `src/runner_api.rs`; the `md` field holds the compiled-in
model metadata constants the methods read through `crate::ModelMetadata`. -/
structure EimModel where
  md : Metadata
  classifier : EdgeImpulseClassifier
  handle : Option Unit
  debug : Bool
  model_parameters : Option ModelParameters
  continuous_state : Option ContinuousState
deriving DecidableEq, Repr

/-- `EimModel::new`: initializes the classifier (whose `init` always returns
`Ok`, so the error branch of the source is dead code), caches the model
parameters from the metadata constants with `use_continuous_mode: false`, and
starts with no continuous state. -/
def EimModel.mk_new (md : Metadata) : EimModel × List EngineCall :=
  ({ md := md,
     classifier := { initialized := true },
     handle := none,
     debug := false,
     model_parameters := some
       { axis_count := md.frequency,
         frequency := (md.frequency : F32),
         has_anomaly := if md.has_anomaly then .KMeans else .None,
         has_object_tracking := md.has_object_tracking,
         image_channel_count := 3,
         image_input_frames := md.input_frames,
         image_input_height := md.input_height,
         image_input_width := md.input_width,
         image_resize_mode := "fit",
         inferencing_engine := md.inferencing_engine,
         input_features_count := md.input_features_count,
         interval_ms := (md.interval_ms : F32),
         label_count := md.label_count,
         labels := [],
         model_type := if md.has_object_detection then "object-detection" else "classification",
         sensor := md.sensor,
         slice_size := md.slice_size,
         thresholds := [],
         use_continuous_mode := false },
     continuous_state := none },
   [.runClassifierInit])

/-- `EimModel::parameters`: the cached parameters, or `ModelNotInitialized`. -/
def EimModel.parameters (m : EimModel) : Except EimError ModelParameters :=
  match m.model_parameters with
  | some p => .ok p
  | none => .error .ModelNotInitialized

/-- `EimModel::requires_continuous_mode`: the cached
`use_continuous_mode` flag, or `false` when parameters are unavailable. -/
def EimModel.requires_continuous_mode (m : EimModel) : Bool :=
  match m.model_parameters with
  | some p => p.use_continuous_mode
  | none => false

/-- The label list built by `EimModel::get_labels`:
`label_0 … label_{label_count-1}`. -/
def labelsOf (md : Metadata) : List String :=
  (List.range md.label_count).map (fun i => "label_" ++ toString i)

/-- `EimModel::get_labels` (always succeeds). -/
def EimModel.get_labels (m : EimModel) : Except EimError (List String) :=
  .ok (labelsOf m.md)

/-- `EimModel::convert_inference_result` in `src/runner_api.rs`: build the
label-to-score map from the classification entries, then choose the result
variant by fixed priority — nonempty (nonzero-filtered) bounding boxes give
`ObjectDetection`, else an anomaly-capable model gives `VisualAnomaly`, else
`Classification`. -/
def EimModel.convert_inference_result (m : EimModel) (result : InferenceResult) :
    Except EimError InferenceResponse :=
  let classifications := result.classifications m.md.label_count
  let bounding_boxes := result.bounding_boxes
  let classification_map :=
    classifications.foldl (fun mp c => mapInsert mp c.label c.value) []
  let inference_result :=
    if bounding_boxes.isEmpty = false then
      RunnerInferenceResult.ObjectDetection
        (bounding_boxes.map (fun bb =>
          { label := bb.label, value := bb.value,
            x := u32_as_i32 bb.x, y := u32_as_i32 bb.y,
            width := u32_as_i32 bb.width, height := u32_as_i32 bb.height }))
        classification_map
    else if m.md.has_anomaly then
      RunnerInferenceResult.VisualAnomaly [] 0 0
        ((mapGet classification_map "anomaly").getD 0)
    else
      RunnerInferenceResult.Classification classification_map
  .ok { success := true, id := 1, result := inference_result }

/-- `EimModel::infer_single` in `src/runner_api.rs`: build a signal from the
features, run the one-shot classifier, convert the raw result.  The model
state is returned unchanged (the source method never mutates it). -/
def EimModel.infer_single (m : EimModel) (eng : Engine) (features : List F32)
    (debug : Bool) :
    Except EimError InferenceResponse × EimModel × List EngineCall :=
  let r :=
    match Signal.from_raw_data eng features with
    | (.error e, tr) => (Except.error (EimError.ofEdgeImpulseError e), tr)
    | (.ok signal, tr1) =>
      match m.classifier.run_classifier eng signal debug with
      | (.error e, tr2) => (.error (EimError.ofEdgeImpulseError e), tr1 ++ tr2)
      | (.ok result, tr2) => (m.convert_inference_result result, tr1 ++ tr2)
  (r.1, m, r.2)

/-- The body of `EimModel::infer_continuous_internal` after the continuous
state has been obtained (freshly constructed or pre-existing): push the new
features into the window; while the buffer is not yet full return the
zero-valued classification for every known label (through the smoothing
filters) without touching the engine; once full, build a signal over the full
window, run the continuous classifier and convert the raw result. -/
def inferContinuousCore (m : EimModel) (eng : Engine) (features : List F32)
    (debug : Bool) (cs : ContinuousState) :
    Except EimError InferenceResponse × EimModel × List EngineCall :=
  let labels := labelsOf m.md
  let cs1 := cs.update_features features
  if cs1.feature_buffer_full = false then
    let empty_classification := labels.foldl (fun mp label => mapInsert mp label 0) []
    let r := cs1.apply_maf empty_classification
    (.ok { success := true, id := 1,
           result := RunnerInferenceResult.Classification r.2 },
     { m with continuous_state := some r.1 }, [])
  else
    let m2 := { m with continuous_state := some cs1 }
    match Signal.from_raw_data eng cs1.feature_matrix with
    | (.error e, tr) => (.error (EimError.ofEdgeImpulseError e), m2, tr)
    | (.ok signal, tr1) =>
      match m2.classifier.run_classifier_continuous eng signal debug true with
      | (.error e, tr2) => (.error (EimError.ofEdgeImpulseError e), m2, tr1 ++ tr2)
      | (.ok result, tr2) => (m2.convert_inference_result result, m2, tr1 ++ tr2)

/-- `EimModel::infer_continuous_internal` in `src/runner_api.rs`: fetch the
labels, construct the continuous state on first use (reading `slice_size`
from `parameters()`, whose absence propagates `ModelNotInitialized`), then
run the core streaming step. -/
def EimModel.infer_continuous_internal (m : EimModel) (eng : Engine)
    (features : List F32) (debug : Bool) :
    Except EimError InferenceResponse × EimModel × List EngineCall :=
  let labels := labelsOf m.md
  match m.continuous_state with
  | some cs => inferContinuousCore m eng features debug cs
  | none =>
    match m.model_parameters with
    | none => (.error .ModelNotInitialized, m, [])
    | some p =>
      inferContinuousCore m eng features debug
        (ContinuousState.mk_new labels p.slice_size)

/-- `EimModel::infer` in `src/runner_api.rs`: resolve the debug flag and
dispatch on `requires_continuous_mode`. -/
def EimModel.infer (m : EimModel) (eng : Engine) (features : List F32)
    (debug : Option Bool) :
    Except EimError InferenceResponse × EimModel × List EngineCall :=
  let debug_enabled := debug.getD m.debug
  if m.requires_continuous_mode then
    m.infer_continuous_internal eng features debug_enabled
  else
    m.infer_single eng features debug_enabled

/-- Iterate the public `infer` entry point over a sequence of feature
vectors, collecting each call's outcome and engine-call trace. -/
def EimModel.runInferSeq (m : EimModel) (eng : Engine) (debug : Option Bool) :
    List (List F32) →
      EimModel × List (Except EimError InferenceResponse × List EngineCall)
  | [] => (m, [])
  | chunk :: rest =>
    let r := m.infer eng chunk debug
    let rs := EimModel.runInferSeq r.2.1 eng debug rest
    (rs.1, (r.1, r.2.2) :: rs.2)

/-- Iterate `infer_continuous_internal` over a sequence of feature slices,
collecting each call's outcome and engine-call trace. -/
def EimModel.runContinuousSeq (m : EimModel) (eng : Engine) (debug : Bool) :
    List (List F32) →
      EimModel × List (Except EimError InferenceResponse × List EngineCall)
  | [] => (m, [])
  | chunk :: rest =>
    let r := m.infer_continuous_internal eng chunk debug
    let rs := EimModel.runContinuousSeq r.2.1 eng debug rest
    (rs.1, (r.1, r.2.2) :: rs.2)

/-- Decidable check used to state claim C1: the call outcome is a successful
response carrying a plain classification in which every given label maps to
exactly `0.0`. -/
def zeroClassificationFor (labels : List String)
    (r : Except EimError InferenceResponse) : Bool :=
  match r with
  | .ok { success := true, id := 1,
          result := RunnerInferenceResult.Classification cls } =>
    labels.all (fun label => mapGet cls label == some 0)
  | _ => false

/-- A moving-average filter whose running sum is zero and whose queue holds
only zeros (the state reached by feeding a fresh filter only zeros). -/
def ZeroFilter (f : MovingAverageFilter) : Prop :=
  f.sum = 0 ∧ ∀ x ∈ f.buffer, x = 0

/-- The invariant maintained across warm-up calls of the continuous state
machine that has seen `pushed` feature samples, all while the window is below
capacity: parameters are cached with the configured slice size, the window
holds exactly the pushed samples, the buffer is not yet marked full, and all
smoothing filters hold only zeros. -/
def WarmState (md : Metadata) (pushed : Nat) (m : EimModel) : Prop :=
  m.md = md ∧
  (∃ p, m.model_parameters = some p ∧ p.slice_size = md.slice_size) ∧
  ((m.continuous_state = none ∧ pushed = 0) ∨
   (∃ cs, m.continuous_state = some cs ∧ cs.slice_size = md.slice_size ∧
      cs.feature_buffer_full = false ∧ cs.feature_matrix.length = pushed ∧
      ∀ q ∈ cs.maf_buffers, ZeroFilter q.2))

/-- Tag identifying which variant of `RunnerInferenceResult` is active, used
to state the result-projection priority rule. -/
inductive ResultKind where
  | classification
  | objectDetection
  | visualAnomaly
deriving DecidableEq, Repr

/-- The active variant of a `RunnerInferenceResult`. -/
def RunnerInferenceResult.kind : RunnerInferenceResult → ResultKind
  | .Classification _ => .classification
  | .ObjectDetection _ _ => .objectDetection
  | .VisualAnomaly _ _ _ _ => .visualAnomaly

/-- A concrete metadata instance (two labels, slice size 5) used by the
witness theorems. -/
def exMd : Metadata :=
  { input_width := 1, input_height := 1, input_frames := 1, label_count := 2,
    sensor := 1, inferencing_engine := 1, interval_ms := 1, frequency := 1,
    slice_size := 5, has_anomaly := false, has_object_detection := false,
    has_object_tracking := false, input_features_count := 5 }

/-- A concrete raw engine result used by the witness theorems. -/
def exRaw : InferenceResult :=
  { classification := [{ label := "label_0", value := 1 }],
    bounding_boxes_raw := [], bounding_boxes_count := 0,
    timing := { dsp := 0, classification := 0, anomaly := 0 } }

/-- A concrete engine whose signal construction succeeds and whose continuous
classify entry point reports status `EI_IMPULSE_TFLITE_ERROR`, used by the
witness theorems. -/
def exEngine : Engine :=
  { signal_from_buffer := fun _ => 0,
    run_classifier := fun _ => (0, exRaw),
    run_classifier_continuous := fun _ => (7, exRaw),
    run_inference := (0, exRaw) }

theorem update_features_slice_size (s : ContinuousState) (f : List F32) :
    (s.update_features f).slice_size = s.slice_size := by
  simp only [ContinuousState.update_features]
  split <;> rfl

theorem update_features_maf_buffers (s : ContinuousState) (f : List F32) :
    (s.update_features f).maf_buffers = s.maf_buffers := by
  simp only [ContinuousState.update_features]
  split <;> rfl

theorem update_features_length_le (s : ContinuousState) (f : List F32) :
    (s.update_features f).feature_matrix.length ≤ s.slice_size := by
  unfold ContinuousState.update_features
  by_cases h : s.slice_size ≤ (s.feature_matrix ++ f).length
  · rw [if_pos h]
    by_cases h2 : s.slice_size < (s.feature_matrix ++ f).length
    · simp only [if_pos h2, List.length_drop]
      omega
    · simp only [if_neg h2]
      omega
  · rw [if_neg h]
    simp only
    omega

theorem update_features_warm (s : ContinuousState) (f : List F32)
    (h : s.feature_matrix.length + f.length < s.slice_size) :
    s.update_features f = { s with feature_matrix := s.feature_matrix ++ f } := by
  unfold ContinuousState.update_features
  rw [if_neg (by simp only [List.length_append]; omega)]

/-- Claim C4: pushing `k ≤ capacity` samples into a window exactly at
capacity evicts exactly the `k` oldest samples from the front, leaving the
window at length == capacity holding the most recent samples in order. -/
theorem claim_C4 (s : ContinuousState) (features : List F32)
    (hfull : s.feature_matrix.length = s.slice_size)
    (hk : features.length ≤ s.slice_size) :
    (s.update_features features).feature_matrix
        = s.feature_matrix.drop features.length ++ features ∧
    (s.update_features features).feature_matrix.length = s.slice_size := by
  have hge : s.slice_size ≤ (s.feature_matrix ++ features).length := by
    simp only [List.length_append, hfull]
    omega
  unfold ContinuousState.update_features
  rw [if_pos hge]
  by_cases h0 : features.length = 0
  · have hnil : features = [] := List.length_eq_zero.mp h0
    subst hnil
    simp only [List.append_nil, hfull, lt_self_iff_false, if_false,
      List.length_nil, List.drop_zero]
    exact ⟨trivial, trivial⟩
  · have hlt : s.slice_size < (s.feature_matrix ++ features).length := by
      simp only [List.length_append, hfull]
      omega
    have hdropn : (s.feature_matrix ++ features).length - s.slice_size
        = features.length := by
      simp only [List.length_append, hfull]
      omega
    have hfl : features.length ≤ s.feature_matrix.length := by omega
    simp only [if_pos hlt, hdropn, List.drop_append_of_le_length hfl]
    refine ⟨trivial, ?_⟩
    simp only [List.length_append, List.length_drop]
    omega

/-- Witness for claim C4 at a concrete window `[1,2,3]` of capacity 3 into
which `[4,5]` is pushed, evicting `1` and `2`. -/
theorem claim_C4_witness :
    (({ feature_matrix := [1, 2, 3], feature_buffer_full := true,
        maf_buffers := [], slice_size := 3 } :
          ContinuousState).feature_matrix.length = 3 ∧
      ([(4 : F32), 5].length ≤ 3)) ∧
    (({ feature_matrix := [1, 2, 3], feature_buffer_full := true,
        maf_buffers := [], slice_size := 3 } :
          ContinuousState).update_features [4, 5]).feature_matrix
        = [3, 4, 5] := by
  constructor
  · exact ⟨rfl, by decide⟩
  · have h := claim_C4
      ({ feature_matrix := [1, 2, 3], feature_buffer_full := true,
         maf_buffers := [], slice_size := 3 } : ContinuousState)
      [4, 5] rfl (by decide)
    rw [h.1]
    decide

theorem foldl_update_features_slice_size (l : List (List F32)) (s : ContinuousState) :
    (l.foldl ContinuousState.update_features s).slice_size = s.slice_size := by
  induction l generalizing s with
  | nil => rfl
  | cons c rest ih =>
    simp only [List.foldl_cons]
    rw [ih, update_features_slice_size]

theorem foldl_update_features_length_le (l : List (List F32)) (s : ContinuousState)
    (h : s.feature_matrix.length ≤ s.slice_size) :
    (l.foldl ContinuousState.update_features s).feature_matrix.length
      ≤ s.slice_size := by
  induction l generalizing s with
  | nil => exact h
  | cons c rest ih =>
    simp only [List.foldl_cons]
    have h1 : (s.update_features c).feature_matrix.length
        ≤ (s.update_features c).slice_size := by
      rw [update_features_slice_size]
      exact update_features_length_le s c
    have := ih (s.update_features c) h1
    rwa [update_features_slice_size] at this

/-- Claim C5: starting from a freshly constructed continuous state, after any
number of `update_features` calls the feature window's length never exceeds
the configured slice size (stated for every prefix of the call sequence). -/
theorem claim_C5 (labels : List String) (n : Nat) (chunks : List (List F32))
    (i : Nat) :
    ((chunks.take i).foldl ContinuousState.update_features
        (ContinuousState.mk_new labels n)).feature_matrix.length ≤ n := by
  exact foldl_update_features_length_le (chunks.take i)
    (ContinuousState.mk_new labels n) (by simp [ContinuousState.mk_new])

theorem filterMap_surfaceBox_eq_filter (l : List BoundingBox) :
    l.filterMap surfaceBox = l.filter (fun bb => decide (bb.value ≠ 0)) := by
  induction l with
  | nil => rfl
  | cons b rest ih =>
    by_cases hb : b.value = 0
    · simp [List.filterMap_cons, List.filter_cons, surfaceBox, hb, ih]
    · simp [List.filterMap_cons, List.filter_cons, surfaceBox, hb, ih]

/-- Claim C8: the surfaced bounding-box list is exactly the raw boxes whose
confidence is not `0.0`, each passed through unmodified (the output elements
are the raw boxes themselves) with no other filtering, stated for raw results
whose box count matches the box array. -/
theorem claim_C8 (r : InferenceResult)
    (h : r.bounding_boxes_count = r.bounding_boxes_raw.length) :
    r.bounding_boxes = r.bounding_boxes_raw.filter (fun bb => decide (bb.value ≠ 0)) := by
  unfold InferenceResult.bounding_boxes
  by_cases h0 : r.bounding_boxes_count = 0
  · rw [if_pos h0]
    rw [h0] at h
    have : r.bounding_boxes_raw = [] := List.length_eq_zero.mp h.symm
    rw [this]
    rfl
  · rw [if_neg h0, h, List.take_length, filterMap_surfaceBox_eq_filter]

/-- Witness for claim C8: a raw result with one box of value `0.0` and one of
value `0.6` yields exactly the `0.6` box. -/
theorem claim_C8_witness :
    ((⟨[], [⟨"zero", 0, 1, 1, 1, 1⟩, ⟨"pos", 6/10, 2, 2, 2, 2⟩], 2, ⟨0, 0, 0⟩⟩ :
        InferenceResult).bounding_boxes_count
      = (⟨[], [⟨"zero", 0, 1, 1, 1, 1⟩, ⟨"pos", 6/10, 2, 2, 2, 2⟩], 2, ⟨0, 0, 0⟩⟩ :
        InferenceResult).bounding_boxes_raw.length) ∧
    (⟨[], [⟨"zero", 0, 1, 1, 1, 1⟩, ⟨"pos", 6/10, 2, 2, 2, 2⟩], 2, ⟨0, 0, 0⟩⟩ :
        InferenceResult).bounding_boxes = [⟨"pos", 6/10, 2, 2, 2, 2⟩] := by
  constructor
  · rfl
  · rw [claim_C8 _ rfl]
    have h6 : ((6 : F32) / 10) ≠ 0 := by norm_num
    simp [List.filter_cons, h6]

/-- Claim C9: the engine status-code mapping is a total pure function into
the closed error enumeration: unmapped codes yield `Other`, the listed codes
map pairwise to distinct error kinds, and repeated application to the same
code yields the same result. -/
theorem claim_C9 :
    (∀ code : Int, code ∉ knownStatusCodes → EdgeImpulseError.fromCode code = .Other) ∧
    knownStatusCodes.Pairwise
      (fun a b => EdgeImpulseError.fromCode a ≠ EdgeImpulseError.fromCode b) ∧
    (∀ code : Int, EdgeImpulseError.fromCode code = EdgeImpulseError.fromCode code) := by
  refine ⟨?_, by decide, fun _ => rfl⟩
  intro code hc
  simp only [knownStatusCodes, List.mem_cons, List.not_mem_nil, or_false,
    not_or] at hc
  obtain ⟨h0, h1, h2, h3, h4, h5, h6, h7, h8, h9, h10, h11, h12, h13⟩ := hc
  simp only [EdgeImpulseError.fromCode, h0, h1, h2, h3, h4, h5, h6, h7, h8,
    h9, h10, h11, h12, h13, if_false]

/-- Witness for claim C9: the unlisted status code `99` maps to `Other`. -/
theorem claim_C9_witness :
    (99 : Int) ∉ knownStatusCodes ∧ EdgeImpulseError.fromCode 99 = .Other :=
  ⟨by decide, claim_C9.1 99 (by decide)⟩

theorem isEmpty_filterMap_surfaceBox (l : List BoundingBox) :
    (l.filterMap surfaceBox).isEmpty
      = !(l.any fun bb => decide (bb.value ≠ 0)) := by
  induction l with
  | nil => rfl
  | cons b rest ih =>
    by_cases hb : b.value = 0
    · simp [List.filterMap_cons, List.any_cons, surfaceBox, hb, ih]
    · simp [List.filterMap_cons, List.any_cons, surfaceBox, hb, ih]

theorem bounding_boxes_isEmpty (r : InferenceResult) :
    r.bounding_boxes.isEmpty
      = !((r.bounding_boxes_raw.take r.bounding_boxes_count).any
            fun bb => decide (bb.value ≠ 0)) := by
  unfold InferenceResult.bounding_boxes
  by_cases h0 : r.bounding_boxes_count = 0
  · simp [h0]
  · rw [if_neg h0, isEmpty_filterMap_surfaceBox]

/-- Claim C7: result projection yields exactly one variant, chosen by fixed
priority — a raw result with at least one nonzero bounding box (among the
counted ones) projects to `ObjectDetection` regardless of the anomaly flag;
otherwise an anomaly-capable model projects to `VisualAnomaly`; otherwise to
`Classification` — and the response is always successful. -/
theorem claim_C7 (m : EimModel) (raw : InferenceResult) :
    (m.convert_inference_result raw).map (fun resp => (resp.success, resp.result.kind))
      = .ok (true,
          if (raw.bounding_boxes_raw.take raw.bounding_boxes_count).any
               (fun bb => decide (bb.value ≠ 0)) then ResultKind.objectDetection
          else if m.md.has_anomaly then ResultKind.visualAnomaly
          else ResultKind.classification) := by
  unfold EimModel.convert_inference_result
  have h := bounding_boxes_isEmpty raw
  by_cases hb : (raw.bounding_boxes_raw.take raw.bounding_boxes_count).any
      (fun bb => decide (bb.value ≠ 0))
  · have hne : raw.bounding_boxes.isEmpty = false := by rw [h, hb]; rfl
    rw [if_pos hb]
    simp [hne, RunnerInferenceResult.kind, Except.map]
  · have hyes : raw.bounding_boxes.isEmpty = true := by
      rw [h, Bool.eq_false_iff.mpr hb]
      rfl
    rw [if_neg hb]
    by_cases ha : m.md.has_anomaly
    · rw [if_pos ha]
      simp [hyes, ha, RunnerInferenceResult.kind, Except.map]
    · rw [if_neg ha]
      simp [hyes, ha, RunnerInferenceResult.kind, Except.map]

/-- Counterexample to claim C2 as stated: an uninitialized classifier rejects
`run_classifier`, but the error it returns is `EdgeImpulseError::Other` (that
error type has no `ModelNotInitialized` member, and the repository's own
conversion into the runner error taxonomy sends `Other` to `EimError::Other`,
not to `EimError::ModelNotInitialized`). -/
theorem claim_C2_counterexample :
    (EdgeImpulseClassifier.run_classifier ⟨false⟩ exEngine ⟨[1]⟩ false).1
        = .error EdgeImpulseError.Other ∧
    EimError.ofEdgeImpulseError EdgeImpulseError.Other
        ≠ EimError.ModelNotInitialized := by
  refine ⟨rfl, ?_⟩
  intro h
  exact EimError.noConfusion h

/-- Claim C2 (amended): on a classifier on which `init()` has not been called
(or which `deinit()` has returned to the uninitialized state), every
inference operation returns an error — `Err(EdgeImpulseError::Other)`, whose
runner-taxonomy image is `EimError::Other`, not `ModelNotInitialized` — and
performs no foreign engine call. -/
theorem claim_C2 (c : EdgeImpulseClassifier) (eng : Engine) (s : Signal)
    (d maf : Bool) (h : c.initialized = false) :
    c.run_classifier eng s d = (.error .Other, []) ∧
    c.run_classifier_continuous eng s d maf = (.error .Other, []) ∧
    c.run_inference eng = (.error .Other, []) := by
  unfold EdgeImpulseClassifier.run_classifier
    EdgeImpulseClassifier.run_classifier_continuous
    EdgeImpulseClassifier.run_inference
  rw [h]
  exact ⟨rfl, rfl, rfl⟩

/-- Witness for the amended claim C2 at a concrete uninitialized classifier. -/
theorem claim_C2_witness :
    (⟨false⟩ : EdgeImpulseClassifier).initialized = false ∧
    EdgeImpulseClassifier.run_classifier ⟨false⟩ exEngine ⟨[1]⟩ false
        = (.error .Other, []) ∧
    EdgeImpulseClassifier.run_classifier_continuous ⟨false⟩ exEngine ⟨[1]⟩ false true
        = (.error .Other, []) ∧
    EdgeImpulseClassifier.run_inference ⟨false⟩ exEngine = (.error .Other, []) :=
  ⟨rfl, claim_C2 ⟨false⟩ exEngine ⟨[1]⟩ false true rfl⟩

theorem infer_single_model_eq (m : EimModel) (eng : Engine) (features : List F32)
    (d : Bool) : (m.infer_single eng features d).2.1 = m := rfl

theorem infer_model_eq (m : EimModel) (eng : Engine) (features : List F32)
    (dbg : Option Bool) (h : m.requires_continuous_mode = false) :
    (m.infer eng features dbg).2.1 = m := by
  unfold EimModel.infer
  rw [h]
  rfl

theorem runInferSeq_model_eq (eng : Engine) (dbg : Option Bool)
    (chunks : List (List F32)) (m : EimModel)
    (h : m.requires_continuous_mode = false) :
    (m.runInferSeq eng dbg chunks).1 = m := by
  induction chunks generalizing m with
  | nil => rfl
  | cons c rest ih =>
    simp only [EimModel.runInferSeq]
    rw [infer_model_eq m eng c dbg h, ih m h]

/-- Claim C3: every model built by `EimModel::new` has `use_continuous_mode`
set to `false`, so `requires_continuous_mode` returns `false`, every public
`infer` call reduces to the one-shot `infer_single` path, and across any
sequence of `infer` calls the model (in particular its absent continuous
state, hence also the smoothing filters) is never touched. -/
theorem claim_C3 (md : Metadata) (eng : Engine) (dbg : Option Bool)
    (chunks : List (List F32)) (features : List F32) :
    ((EimModel.mk_new md).1.model_parameters.map
        (fun p => p.use_continuous_mode) = some false) ∧
    (EimModel.mk_new md).1.requires_continuous_mode = false ∧
    ((EimModel.mk_new md).1.infer eng features dbg
        = (EimModel.mk_new md).1.infer_single eng features
            (dbg.getD (EimModel.mk_new md).1.debug)) ∧
    ((EimModel.mk_new md).1.runInferSeq eng dbg chunks).1 = (EimModel.mk_new md).1 ∧
    ((EimModel.mk_new md).1.runInferSeq eng dbg chunks).1.continuous_state = none := by
  refine ⟨rfl, rfl, ?_, ?_, ?_⟩
  · unfold EimModel.infer
    rw [(rfl : (EimModel.mk_new md).1.requires_continuous_mode = false)]
    rfl
  · exact runInferSeq_model_eq eng dbg chunks (EimModel.mk_new md).1 rfl
  · rw [runInferSeq_model_eq eng dbg chunks (EimModel.mk_new md).1 rfl]
    rfl

theorem inferContinuousCore_engine_fail (m : EimModel) (eng : Engine)
    (features : List F32) (dbg : Bool) (cs s1 : ContinuousState) (code : Int)
    (hinit : m.classifier.initialized = true)
    (hs1 : s1 = cs.update_features features)
    (hfull : s1.feature_buffer_full = true)
    (hsig : eng.signal_from_buffer s1.feature_matrix = EI_IMPULSE_OK)
    (hcode : (eng.run_classifier_continuous s1.feature_matrix).1 = code)
    (hne : code ≠ EI_IMPULSE_OK) :
    inferContinuousCore m eng features dbg cs =
      (.error (EimError.ofEdgeImpulseError (EdgeImpulseError.fromCode code)),
       { m with continuous_state := some s1 },
       [EngineCall.signalFromBuffer s1.feature_matrix,
        EngineCall.runClassifierContinuous s1.feature_matrix true]) := by
  unfold inferContinuousCore
  rw [← hs1]
  simp only [hfull, Bool.true_eq_false, if_false]
  unfold Signal.from_raw_data
  rw [if_pos hsig]
  unfold EdgeImpulseClassifier.run_classifier_continuous
  simp only [hinit, if_true]
  rw [hcode, if_neg hne]
  rfl

theorem infer_continuous_internal_as_core (m : EimModel) (eng : Engine)
    (features : List F32) (dbg : Bool) (p : ModelParameters)
    (hp : m.model_parameters = some p) :
    m.infer_continuous_internal eng features dbg =
      inferContinuousCore m eng features dbg
        (m.continuous_state.getD
          (ContinuousState.mk_new (labelsOf m.md) p.slice_size)) := by
  unfold EimModel.infer_continuous_internal
  cases hcs : m.continuous_state with
  | none =>
    rw [hp]
    rfl
  | some cs => rfl

/-- Claim C10: when, on a continuous-inference call, the engine's continuous
classify entry point reports a non-Ok status, the call returns the mapped
error, performs exactly one signal construction and one continuous-classify
call (no retry), and the continuous state afterwards is exactly the state
just after `update_features` appended this call's samples. -/
theorem claim_C10 (m : EimModel) (eng : Engine) (features : List F32)
    (dbg : Bool) (p : ModelParameters) (s1 : ContinuousState) (code : Int)
    (hinit : m.classifier.initialized = true)
    (hp : m.model_parameters = some p)
    (hs1 : s1 = (m.continuous_state.getD
        (ContinuousState.mk_new (labelsOf m.md) p.slice_size)).update_features features)
    (hfull : s1.feature_buffer_full = true)
    (hsig : eng.signal_from_buffer s1.feature_matrix = EI_IMPULSE_OK)
    (hcode : (eng.run_classifier_continuous s1.feature_matrix).1 = code)
    (hne : code ≠ EI_IMPULSE_OK) :
    m.infer_continuous_internal eng features dbg =
      (.error (EimError.ofEdgeImpulseError (EdgeImpulseError.fromCode code)),
       { m with continuous_state := some s1 },
       [EngineCall.signalFromBuffer s1.feature_matrix,
        EngineCall.runClassifierContinuous s1.feature_matrix true]) := by
  rw [infer_continuous_internal_as_core m eng features dbg p hp]
  exact inferContinuousCore_engine_fail m eng features dbg _ s1 code hinit hs1
    hfull hsig hcode hne

/-- Witness for claim C10: on a freshly constructed model over concrete
metadata with slice size 5, pushing `[1,2,3,4,5]` fills the window and the
concrete engine's continuous classify reports status `7`
(`EI_IMPULSE_TFLITE_ERROR`), so the call returns the mapped execution error,
the window keeps exactly the five appended samples, and exactly one classify
call was made. -/
theorem claim_C10_witness :
    ((EimModel.mk_new exMd).1.classifier.initialized = true ∧
     ((ContinuousState.mk_new (labelsOf exMd) 5).update_features
        [1, 2, 3, 4, 5]).feature_buffer_full = true ∧
     (7 : Int) ≠ EI_IMPULSE_OK) ∧
    (let m0 := (EimModel.mk_new exMd).1
     let s1 := (ContinuousState.mk_new (labelsOf exMd) 5).update_features
        [1, 2, 3, 4, 5]
     m0.infer_continuous_internal exEngine [1, 2, 3, 4, 5] false =
       (.error (EimError.ofEdgeImpulseError (EdgeImpulseError.fromCode 7)),
        { m0 with continuous_state := some s1 },
        [EngineCall.signalFromBuffer s1.feature_matrix,
         EngineCall.runClassifierContinuous s1.feature_matrix true])) := by
  constructor
  · exact ⟨rfl, rfl, by decide⟩
  · exact claim_C10 (EimModel.mk_new exMd).1 exEngine [1, 2, 3, 4, 5] false _
      ((ContinuousState.mk_new (labelsOf exMd) 5).update_features [1, 2, 3, 4, 5])
      7 rfl rfl rfl rfl rfl rfl (by decide)

theorem maf_update_eq_pop (f : MovingAverageFilter) (v old : F32) (rest : List F32)
    (hc : f.window_size ≤ f.buffer.length) (hbuf : f.buffer = old :: rest) :
    f.update v = (⟨rest ++ [v], f.window_size, f.sum - old + v⟩,
      (f.sum - old + v) / (((rest ++ [v]).length : Nat) : F32)) := by
  have hc2 : f.window_size ≤ (old :: rest).length := hbuf ▸ hc
  simp only [MovingAverageFilter.update, hbuf, if_pos hc2]

theorem maf_update_eq_nil (f : MovingAverageFilter) (v : F32)
    (hc : f.window_size ≤ f.buffer.length) (hbuf : f.buffer = []) :
    f.update v = (⟨[v], f.window_size, f.sum + v⟩,
      (f.sum + v) / (((1 : Nat) : F32))) := by
  simp only [MovingAverageFilter.update, hbuf, ite_self, List.nil_append,
    List.length_cons, List.length_nil]

theorem maf_update_eq_grow (f : MovingAverageFilter) (v : F32)
    (hc : ¬ f.window_size ≤ f.buffer.length) :
    f.update v = (⟨f.buffer ++ [v], f.window_size, f.sum + v⟩,
      (f.sum + v) / (((f.buffer ++ [v]).length : Nat) : F32)) := by
  simp only [MovingAverageFilter.update, if_neg hc]

theorem maf_update_zero (f : MovingAverageFilter) (h : ZeroFilter f) :
    ZeroFilter (f.update 0).1 ∧ (f.update 0).2 = 0 := by
  obtain ⟨hs, hb⟩ := h
  by_cases hc : f.window_size ≤ f.buffer.length
  · cases hbuf : f.buffer with
    | nil =>
      rw [maf_update_eq_nil f 0 hc hbuf]
      refine ⟨⟨by simp [hs], ?_⟩, by simp [hs]⟩
      intro x hx
      simpa using hx
    | cons old rest =>
      have hold : old = 0 := hb old (hbuf ▸ List.mem_cons_self old rest)
      rw [maf_update_eq_pop f 0 old rest hc hbuf]
      refine ⟨⟨by simp [hs, hold], ?_⟩, by simp [hs, hold]⟩
      intro x hx
      rcases List.mem_append.mp hx with h1 | h1
      · exact hb x (by rw [hbuf]; exact List.mem_cons_of_mem _ h1)
      · simpa using h1
  · rw [maf_update_eq_grow f 0 hc]
    refine ⟨⟨by simp [hs], ?_⟩, by simp [hs]⟩
    intro x hx
    rcases List.mem_append.mp hx with h1 | h1
    · exact hb x h1
    · simpa using h1

theorem updateMafBuffers_zero (bufs : List (String × MovingAverageFilter))
    (label : String) (h : ∀ q ∈ bufs, ZeroFilter q.2) :
    (updateMafBuffers bufs label 0).2 = 0 ∧
    ∀ q ∈ (updateMafBuffers bufs label 0).1, ZeroFilter q.2 := by
  induction bufs with
  | nil => exact ⟨rfl, by intro q hq; simp [updateMafBuffers] at hq⟩
  | cons hd tl ih =>
    obtain ⟨l, maf⟩ := hd
    have hmaf : ZeroFilter maf := h (l, maf) (List.mem_cons_self _ _)
    have htl : ∀ q ∈ tl, ZeroFilter q.2 := fun q hq => h q (List.mem_cons_of_mem _ hq)
    by_cases hl : (l == label) = true
    · simp only [updateMafBuffers, hl, if_true]
      obtain ⟨hz, hv⟩ := maf_update_zero maf hmaf
      refine ⟨hv, ?_⟩
      intro q hq
      rcases List.mem_cons.mp hq with h1 | h1
      · rw [h1]
        exact hz
      · exact htl q h1
    · simp only [updateMafBuffers, hl, if_false]
      obtain ⟨hv, hz⟩ := ih htl
      refine ⟨hv, ?_⟩
      intro q hq
      rcases List.mem_cons.mp hq with h1 | h1
      · rw [h1]
        exact hmaf
      · exact hz q h1

theorem applyMafList_zero (cls : List (String × F32))
    (bufs : List (String × MovingAverageFilter))
    (hb : ∀ q ∈ bufs, ZeroFilter q.2) (hc : ∀ q ∈ cls, q.2 = (0 : F32)) :
    (applyMafList bufs cls).2 = cls ∧
    ∀ q ∈ (applyMafList bufs cls).1, ZeroFilter q.2 := by
  induction cls generalizing bufs with
  | nil => exact ⟨rfl, hb⟩
  | cons hd tl ih =>
    obtain ⟨label, v⟩ := hd
    have hv : v = 0 := hc (label, v) (List.mem_cons_self _ _)
    subst hv
    have htl : ∀ q ∈ tl, q.2 = (0 : F32) := fun q hq => hc q (List.mem_cons_of_mem _ hq)
    obtain ⟨hout, hbufs1⟩ := updateMafBuffers_zero bufs label hb
    obtain ⟨hrec, hbufs2⟩ := ih (updateMafBuffers bufs label 0).1 hbufs1 htl
    simp only [applyMafList]
    exact ⟨by rw [hout, hrec], hbufs2⟩

theorem mapInsert_zero_values (mp : List (String × F32)) (k : String)
    (h : ∀ q ∈ mp, q.2 = (0 : F32)) :
    ∀ q ∈ mapInsert mp k 0, q.2 = (0 : F32) := by
  unfold mapInsert
  split
  · intro q hq
    rcases List.mem_map.mp hq with ⟨p, hp, hpq⟩
    by_cases hpk : (p.1 == k) = true
    · rw [if_pos hpk] at hpq
      rw [← hpq]
    · rw [if_neg hpk] at hpq
      rw [← hpq]
      exact h p hp
  · intro q hq
    rcases List.mem_append.mp hq with h1 | h1
    · exact h q h1
    · simp only [List.mem_singleton] at h1
      rw [h1]

theorem mapInsert_key_present (mp : List (String × F32)) (k : String) (v : F32) :
    ∃ q ∈ mapInsert mp k v, q.1 = k := by
  unfold mapInsert
  split
  next hany =>
    rcases List.any_eq_true.mp hany with ⟨p, hp, hpk⟩
    refine ⟨(k, v), List.mem_map.mpr ⟨p, hp, ?_⟩, rfl⟩
    simp [hpk]
  next =>
    exact ⟨(k, v), List.mem_append.mpr (Or.inr (List.mem_singleton.mpr rfl)), rfl⟩

theorem mapInsert_preserves_key (mp : List (String × F32)) (k k0 : String)
    (v : F32) (h : ∃ q ∈ mp, q.1 = k0) : ∃ q ∈ mapInsert mp k v, q.1 = k0 := by
  unfold mapInsert
  split
  · rcases h with ⟨q, hq, hk0⟩
    by_cases hqk : (q.1 == k) = true
    · have hkk0 : k = k0 := by
        have h2 := beq_iff_eq.mp hqk
        rw [← h2, hk0]
      refine ⟨(k, v), List.mem_map.mpr ⟨q, hq, ?_⟩, hkk0⟩
      simp [hqk]
    · refine ⟨q, List.mem_map.mpr ⟨q, hq, ?_⟩, hk0⟩
      simp [hqk]
  · rcases h with ⟨q, hq, hk0⟩
    exact ⟨q, List.mem_append.mpr (Or.inl hq), hk0⟩

theorem foldl_mapInsert_zero (labels : List String) (mp : List (String × F32))
    (h : ∀ q ∈ mp, q.2 = (0 : F32)) :
    (∀ q ∈ labels.foldl (fun a l => mapInsert a l 0) mp, q.2 = (0 : F32)) ∧
    (∀ l ∈ labels, ∃ q ∈ labels.foldl (fun a l => mapInsert a l 0) mp, q.1 = l) ∧
    (∀ k0, (∃ q ∈ mp, q.1 = k0) →
      ∃ q ∈ labels.foldl (fun a l => mapInsert a l 0) mp, q.1 = k0) := by
  induction labels generalizing mp with
  | nil => exact ⟨h, by intro l hl; simp at hl, fun k0 hk0 => hk0⟩
  | cons l rest ih =>
    obtain ⟨ih1, ih2, ih3⟩ := ih (mapInsert mp l 0) (mapInsert_zero_values mp l h)
    simp only [List.foldl_cons]
    refine ⟨ih1, ?_, ?_⟩
    · intro l0 hl0
      rcases List.mem_cons.mp hl0 with h1 | h1
      · subst h1
        exact ih3 l0 (mapInsert_key_present mp l0 0)
      · exact ih2 l0 h1
    · intro k0 hk0
      exact ih3 k0 (mapInsert_preserves_key mp l k0 0 hk0)

theorem mapGet_zero (mp : List (String × F32)) (k : String)
    (hvals : ∀ q ∈ mp, q.2 = (0 : F32)) (hkey : ∃ q ∈ mp, q.1 = k) :
    mapGet mp k = some 0 := by
  unfold mapGet
  have hsome : (mp.find? (fun p => p.1 == k)).isSome := by
    rw [List.find?_isSome]
    rcases hkey with ⟨q, hq, hk⟩
    exact ⟨q, hq, by rw [hk]; exact beq_self_eq_true k⟩
  rcases Option.isSome_iff_exists.mp hsome with ⟨q, hq⟩
  rw [hq]
  have hz := hvals q (List.mem_of_find?_eq_some hq)
  simp [hz]

theorem core_warm_step (md : Metadata) (eng : Engine) (dbg : Bool) (m : EimModel)
    (chunk : List F32) (pushed : Nat) (cs : ContinuousState)
    (hmd : m.md = md)
    (hparams : ∃ p, m.model_parameters = some p ∧ p.slice_size = md.slice_size)
    (hslice : cs.slice_size = md.slice_size)
    (hfullb : cs.feature_buffer_full = false)
    (hlen : cs.feature_matrix.length = pushed)
    (hmaf : ∀ q ∈ cs.maf_buffers, ZeroFilter q.2)
    (hlt : pushed + chunk.length < md.slice_size) :
    (inferContinuousCore m eng chunk dbg cs).2.2 = [] ∧
    zeroClassificationFor (labelsOf md) (inferContinuousCore m eng chunk dbg cs).1 = true ∧
    WarmState md (pushed + chunk.length) (inferContinuousCore m eng chunk dbg cs).2.1 := by
  subst hmd
  have hwarm : cs.feature_matrix.length + chunk.length < cs.slice_size := by
    rw [hlen, hslice]
    exact hlt
  have hupd : cs.update_features chunk
      = { cs with feature_matrix := cs.feature_matrix ++ chunk } :=
    update_features_warm cs chunk hwarm
  have hfull1 : (cs.update_features chunk).feature_buffer_full = false := by
    rw [hupd]
    exact hfullb
  obtain ⟨hec_vals, hec_keys, _⟩ :=
    foldl_mapInsert_zero (labelsOf m.md) [] (by intro q hq; simp at hq)
  obtain ⟨hmafout, hmafz⟩ := applyMafList_zero
    ((labelsOf m.md).foldl (fun mp label => mapInsert mp label 0) [])
    (cs.update_features chunk).maf_buffers
    (by rw [update_features_maf_buffers]; exact hmaf) hec_vals
  have hcore : inferContinuousCore m eng chunk dbg cs =
      (.ok { success := true, id := 1,
             result := RunnerInferenceResult.Classification
               ((applyMafList (cs.update_features chunk).maf_buffers
                 ((labelsOf m.md).foldl (fun mp label => mapInsert mp label 0) [])).2) },
       { m with continuous_state := some ({
          feature_matrix := (cs.update_features chunk).feature_matrix,
          feature_buffer_full := (cs.update_features chunk).feature_buffer_full,
          maf_buffers := (applyMafList (cs.update_features chunk).maf_buffers
            ((labelsOf m.md).foldl (fun mp label => mapInsert mp label 0) [])).1,
          slice_size := (cs.update_features chunk).slice_size } : ContinuousState) },
       []) := by
    simp only [inferContinuousCore, ContinuousState.apply_maf, hfull1, if_true]
  rw [hcore]
  refine ⟨rfl, ?_, ?_⟩
  · simp only [zeroClassificationFor, hmafout]
    rw [List.all_eq_true]
    intro l hl
    rw [mapGet_zero _ l hec_vals (hec_keys l hl)]
    rfl
  · refine ⟨rfl, hparams, Or.inr ⟨_, rfl, ?_, ?_, ?_, hmafz⟩⟩
    · show (cs.update_features chunk).slice_size = m.md.slice_size
      rw [update_features_slice_size]
      exact hslice
    · exact hfull1
    · show (cs.update_features chunk).feature_matrix.length = pushed + chunk.length
      rw [hupd]
      simp only [List.length_append, hlen]

theorem warm_step (md : Metadata) (eng : Engine) (dbg : Bool) (m : EimModel)
    (chunk : List F32) (pushed : Nat)
    (hw : WarmState md pushed m) (hlt : pushed + chunk.length < md.slice_size) :
    (m.infer_continuous_internal eng chunk dbg).2.2 = [] ∧
    zeroClassificationFor (labelsOf md)
      (m.infer_continuous_internal eng chunk dbg).1 = true ∧
    WarmState md (pushed + chunk.length)
      (m.infer_continuous_internal eng chunk dbg).2.1 := by
  obtain ⟨hmd, ⟨p, hp, hps⟩, hstate⟩ := hw
  rw [infer_continuous_internal_as_core m eng chunk dbg p hp]
  rcases hstate with ⟨hnone, hpz⟩ | ⟨cs, hsome, hsl, hfb, hln, hmz⟩
  · subst hpz
    rw [hnone]
    refine core_warm_step md eng dbg m chunk 0 _ hmd ⟨p, hp, hps⟩ ?_ rfl rfl ?_ hlt
    · show (ContinuousState.mk_new (labelsOf m.md) p.slice_size).slice_size
        = md.slice_size
      rw [ContinuousState.mk_new]
      exact hps
    · intro q hq
      rcases List.mem_map.mp hq with ⟨label, _, hlq⟩
      rw [← hlq]
      exact ⟨rfl, by intro x hx; simp [MovingAverageFilter.mk_new] at hx⟩
  · rw [hsome]
    exact core_warm_step md eng dbg m chunk pushed cs hmd ⟨p, hp, hps⟩ hsl hfb hln
      hmz hlt

theorem warm_seq (md : Metadata) (eng : Engine) (dbg : Bool)
    (chunks : List (List F32)) :
    ∀ (m : EimModel) (pushed : Nat), WarmState md pushed m →
      pushed + (chunks.map List.length).sum < md.slice_size →
      ∀ out ∈ (m.runContinuousSeq eng dbg chunks).2,
        out.2 = [] ∧ zeroClassificationFor (labelsOf md) out.1 = true := by
  induction chunks with
  | nil =>
    intro m pushed _ _ out hout
    simp [EimModel.runContinuousSeq] at hout
  | cons c rest ih =>
    intro m pushed hw hlt out hout
    have hsum : pushed + (c.length + (rest.map List.length).sum) < md.slice_size := by
      simpa [List.map_cons, List.sum_cons] using hlt
    have hc : pushed + c.length < md.slice_size := by omega
    obtain ⟨htr, hzero, hw1⟩ := warm_step md eng dbg m c pushed hw hc
    simp only [EimModel.runContinuousSeq, List.mem_cons] at hout
    rcases hout with h1 | h1
    · rw [h1]
      exact ⟨htr, hzero⟩
    · exact ih (m.infer_continuous_internal eng c dbg).2.1 (pushed + c.length) hw1
        (by omega) out h1

/-- Claim C1: for every sequence of continuous-inference calls that pushes
fewer samples in total than the configured slice size, every call returns a
successful classification in which every known label maps to exactly `0.0`,
and no engine entry point is invoked during any of those calls (each call's
engine trace is empty). -/
theorem claim_C1 (md : Metadata) (eng : Engine) (dbg : Bool)
    (chunks : List (List F32))
    (h : (chunks.map List.length).sum < md.slice_size) :
    ∀ out ∈ (((EimModel.mk_new md).1).runContinuousSeq eng dbg chunks).2,
      out.2 = [] ∧ zeroClassificationFor (labelsOf md) out.1 = true := by
  refine warm_seq md eng dbg chunks (EimModel.mk_new md).1 0 ?_ (by simpa using h)
  exact ⟨rfl, ⟨_, rfl, rfl⟩, Or.inl ⟨rfl, rfl⟩⟩

/-- Witness for claim C1: over concrete metadata with slice size 5 and two
labels, pushing `[1]` then `[2,3]` (3 samples in total) yields two calls that
both return the all-zero classification with an empty engine trace. -/
theorem claim_C1_witness :
    (([[1], [2, 3]].map List.length).sum < exMd.slice_size) ∧
    (∀ out ∈ (((EimModel.mk_new exMd).1).runContinuousSeq exEngine false
        [[(1 : F32)], [2, 3]]).2,
      out.2 = [] ∧ zeroClassificationFor (labelsOf exMd) out.1 = true) :=
  ⟨by decide, claim_C1 exMd exEngine false [[1], [2, 3]] (by decide)⟩
